import Mathlib

/-!
Shallow embedding of the signal-detection core of the EGAVSIV/ALGO-TRADE
repository (src/algo.py): the EMA / Bollinger indicator engine, the two
signal-detection strategies, the per-instrument combination policy, the
candle fetch guard and the per-instrument evaluation loop.

Prices and indicator values are modelled as rationals (`ℚ`) where the code
does exact-recurrence arithmetic, and as reals (`ℝ`) for the Bollinger band
computation, whose standard deviation needs a square root.  Python
exceptions (the pandas `IndexError` from `.iloc`, the explicit `raise` in
`fetch_candles`) are modelled with `Except String`.
-/

namespace Algo

/-- Trading signal produced by a strategy: `"BUY_CE"` (bullish, buy call)
or `"BUY_PE"` (bearish, buy put).  Python's `None` (no signal) is modelled
as `none : Option Sig`. -/
inductive Sig where
  | BUY_CE
  | BUY_PE
  deriving DecidableEq, Repr

/-- One position of an indicator-annotated candle series as the detectors
read it: the `close` price plus the derived columns `ema20`, `ema50`,
`bb_upper`, `bb_lower` (src/algo.py lines 190-196 attach them before the
detectors run). -/
structure Row where
  close : ℚ
  ema20 : ℚ
  ema50 : ℚ
  bb_upper : ℚ
  bb_lower : ℚ
  deriving DecidableEq, Repr

/-- pandas positional indexing `df.iloc[k]`: a negative `k` counts from the
end; an index outside the frame raises
`IndexError: single positional indexer is out-of-bounds`. -/
def iloc (df : List Row) (k : Int) : Except String Row :=
  let i : Int := if k < 0 then k + (df.length : Int) else k
  if 0 ≤ i then
    match df.get? i.toNat with
    | some r => Except.ok r
    | none => Except.error ("single positional indexer is out-of-bounds")
  else Except.error ("single positional indexer is out-of-bounds")

/-- `algo_ema_pullback(htf, ltf)` (src/algo.py lines 92-108): trend from the
last `ema20` vs `ema50` of `htf`, pullback crossover on the last two rows
of `ltf`.  `prev = ltf.iloc[-2]` is evaluated first, then
`curr = ltf.iloc[-1]`, then the trend condition reads `htf*.iloc[-1]`;
any of those accesses can raise. -/
def algo_ema_pullback (htf ltf : List Row) : Except String (Option Sig) :=
  match iloc ltf (-2) with
  | Except.error e => Except.error e
  | Except.ok prev =>
    match iloc ltf (-1) with
    | Except.error e => Except.error e
    | Except.ok curr =>
      match iloc htf (-1) with
      | Except.error e => Except.error e
      | Except.ok hlast =>
        Except.ok (
          if hlast.ema20 > hlast.ema50 then
            if prev.close < prev.ema20 ∧ curr.close > curr.ema20 then some Sig.BUY_CE
            else if prev.close < prev.ema50 ∧ curr.close > curr.ema50 then some Sig.BUY_CE
            else none
          else if hlast.ema20 < hlast.ema50 then
            if prev.close > prev.ema20 ∧ curr.close < curr.ema20 then some Sig.BUY_PE
            else if prev.close > prev.ema50 ∧ curr.close < curr.ema50 then some Sig.BUY_PE
            else none
          else none)

/-- `algo_bb_reversal(df)` (src/algo.py lines 110-119): mean-reversion
re-entry through the Bollinger bands on the last two rows.  The lower-band
check has priority over the upper-band check. -/
def algo_bb_reversal (df : List Row) : Except String (Option Sig) :=
  match iloc df (-2) with
  | Except.error e => Except.error e
  | Except.ok prev =>
    match iloc df (-1) with
    | Except.error e => Except.error e
    | Except.ok curr =>
      Except.ok (
        if prev.close < prev.bb_lower ∧ curr.close > curr.bb_lower then some Sig.BUY_CE
        else if prev.close > prev.bb_upper ∧ curr.close < curr.bb_upper then some Sig.BUY_PE
        else none)

/-- The per-instrument signal combination of the run loop (src/algo.py
lines 198-204):
`signal = None; if use_ema: signal = algo_ema_pullback(htf, ltf);`
`if not signal and use_bb: signal = algo_bb_reversal(ltf)`.
An exception from either strategy propagates out of the combination (it is
caught further out, at the instrument loop). -/
def cycleSignal (use_ema use_bb : Bool) (htf ltf : List Row) :
    Except String (Option Sig) :=
  let step1 : Except String (Option Sig) :=
    if use_ema then algo_ema_pullback htf ltf else Except.ok none
  match step1 with
  | Except.error e => Except.error e
  | Except.ok s1 =>
    if s1 = none && use_bb then algo_bb_reversal ltf else Except.ok s1

/-- A message shown on the operator display for one instrument in one
cycle: a signal (`st.success`), a no-signal notice (`st.write`) or a
per-instrument error (`st.error`, from the `except` branch). -/
inductive Msg where
  | signal (sym : String) (s : Sig)
  | nosig (sym : String)
  | err (sym : String) (e : String)
  deriving DecidableEq, Repr

/-- The display step of one iteration of the instrument loop (src/algo.py
lines 206-212): a successful evaluation shows the signal or a "No Signal"
line; a caught exception renders the per-instrument error message. -/
def renderStep (sym : String) (r : Except String (Option Sig)) : Msg :=
  match r with
  | Except.ok (some s) => Msg.signal sym s
  | Except.ok none => Msg.nosig sym
  | Except.error e => Msg.err sym e

/-- The per-instrument loop `for sym in symbols: try ... except` of one
cycle (src/algo.py lines 183-212).  `evalBody sym` is the fallible body of
the `try` block for instrument `sym` (instrument lookup, the two fetches,
indicator computation and the strategy combination, any of which can raise);
the `except` branch turns its exception into a per-instrument message and
the loop moves on to the next instrument. -/
def runCycle (evalBody : String → Except String (Option Sig)) :
    List String → List Msg
  | [] => []
  | sym :: rest => renderStep sym (evalBody sym) :: runCycle evalBody rest

/-- `ema(series, period)` = `series.ewm(span=period, adjust=False).mean()`
(src/algo.py lines 59-60).  With `adjust=False` pandas uses the recurrence
`y_0 = x_0`, `y_i = α·x_i + (1-α)·y_{i-1}`, `α = 2/(span+1)`.
`emaFrom α y xs` is the tail of outputs after an output `y`. -/
def emaFrom (α : ℚ) (y : ℚ) : List ℚ → List ℚ
  | [] => []
  | x :: xs => (α * x + (1 - α) * y) :: emaFrom α (α * x + (1 - α) * y) xs

/-- `ema(series, period)` (src/algo.py lines 59-60), seeded from the first
element. -/
def ema (series : List ℚ) (period : ℕ) : List ℚ :=
  match series with
  | [] => []
  | x :: xs => x :: emaFrom (2 / ((period : ℚ) + 1)) x xs

/-- One raw candle as fetched: `[time, open, high, low, close, volume]`
(src/algo.py line 86). -/
structure Candle where
  time : String
  open_ : ℚ
  high : ℚ
  low : ℚ
  close : ℚ
  volume : ℚ
  deriving DecidableEq, Repr

/-- The parts of the upstream HTTP response that `fetch_candles` inspects:
the status code and the JSON payload, where `payload = none` models a body
with no `"data"` field, `payload = some none` a `"data"` object with no
`"candles"` field, and `payload = some (some cs)` the candle list. -/
structure FetchResponse where
  status : ℕ
  payload : Option (Option (List Candle))
  deriving DecidableEq, Repr

/-- Python `candles[-count:]` (src/algo.py line 82): the last `count`
elements, or the whole list when `count = 0`. -/
def takeLastPy (count : ℕ) (l : List Candle) : List Candle :=
  if count = 0 then l else l.drop (l.length - count)

/-- `fetch_candles` (src/algo.py lines 70-89): raise on a non-200 status,
raise when the `"data"` or `"candles"` field is absent, otherwise build the
candle frame from the last `count` candles. -/
def fetch_candles (r : FetchResponse) (count : ℕ) : Except String (List Candle) :=
  if r.status ≠ 200 then Except.error ("HTTP " ++ toString r.status)
  else
    match r.payload with
    | none => Except.error ("No candle data returned")
    | some none => Except.error ("No candle data returned")
    | some (some candles) => Except.ok (takeLastPy count candles)

/-! Bollinger indicator layer (real-valued, src/algo.py lines 62-67).

`bollinger(df, period=20)` computes `ma = df["close"].rolling(period).mean()`
and `std = df["close"].rolling(period).std()` (sample standard deviation,
`ddof=1`), writes the columns `df["bb_upper"] = ma + 2*std` and
`df["bb_lower"] = ma - 2*std` into the frame `df` in place, and returns
that same frame.  Rolling values at positions before the window is full are
`NaN`, modelled as `none`. -/

/-- Mean of a list of reals (`sum / length`). -/
noncomputable def listMean (w : List ℝ) : ℝ := w.sum / (w.length : ℝ)

/-- Sum of squared deviations from the mean. -/
noncomputable def devSqSum (w : List ℝ) : ℝ := (w.map (fun x => (x - listMean w) ^ 2)).sum

/-- Sample standard deviation (pandas `ddof=1`): square root of the sum of
squared deviations divided by `n - 1`. -/
noncomputable def sampleStd (w : List ℝ) : ℝ :=
  Real.sqrt (devSqSum w / ((w.length : ℝ) - 1))

/-- The trailing window of `p` observations ending at position `i`
(positions `i+1-p` through `i`). -/
def window (xs : List ℝ) (p i : ℕ) : List ℝ := (xs.take (i + 1)).drop (i + 1 - p)

/-- `series.rolling(p).f()`: apply `f` to the trailing window at each
position where the window is full, `NaN` (`none`) before that. -/
def rollingApply (f : List ℝ → ℝ) (p : ℕ) (xs : List ℝ) : List (Option ℝ) :=
  (List.range xs.length).map
    (fun i => if p ≤ i + 1 then some (f (window xs p i)) else none)

/-- Combine two indicator columns positionwise; `NaN` (`none`) propagates,
as it does through pandas arithmetic. -/
def obin (f : ℝ → ℝ → ℝ) : Option ℝ → Option ℝ → Option ℝ
  | some a, some b => some (f a b)
  | _, _ => none

/-- The `bb_upper` column `ma + 2 * std` (src/algo.py line 65). -/
noncomputable def bbUpperCol (xs : List ℝ) (p : ℕ) : List (Option ℝ) :=
  List.zipWith (obin (fun m s => m + 2 * s))
    (rollingApply listMean p xs) (rollingApply sampleStd p xs)

/-- The `bb_lower` column `ma - 2 * std` (src/algo.py line 66). -/
noncomputable def bbLowerCol (xs : List ℝ) (p : ℕ) : List (Option ℝ) :=
  List.zipWith (obin (fun m s => m - 2 * s))
    (rollingApply listMean p xs) (rollingApply sampleStd p xs)

/-- A candle data frame as `bollinger` sees it: the six columns built by
`fetch_candles` (src/algo.py lines 84-88) plus the Bollinger band columns,
which are absent (`none`) until `bollinger` assigns them. -/
structure DF where
  time : List String
  open_ : List ℝ
  high : List ℝ
  low : List ℝ
  close : List ℝ
  volume : List ℝ
  bb_upper : Option (List (Option ℝ))
  bb_lower : Option (List (Option ℝ))

/-- `bollinger(df, period)` (src/algo.py lines 62-67).  The two column
assignments `df["bb_upper"] = ...`, `df["bb_lower"] = ...` mutate the frame
object passed in; `return df` returns that same object, so the value
returned here is also the state of the caller's frame after the call. -/
noncomputable def bollinger (df : DF) (period : ℕ) : DF :=
  { df with
    bb_upper := some (bbUpperCol df.close period)
    bb_lower := some (bbLowerCol df.close period) }

/-- State of the frame passed to `bollinger` after the call returns: by the
in-place column assignments on src/algo.py lines 65-66 the returned frame
is the argument itself, so the argument's post-call state equals the
returned frame. -/
noncomputable def bollingerArgAfter (df : DF) (period : ℕ) : DF :=
  bollinger df period

/-! Decidable equality of strategy outcomes, so concrete runs can be checked
by `decide`. -/

instance {ε α : Type} [DecidableEq ε] [DecidableEq α] : DecidableEq (Except ε α) := fun x y =>
  match x, y with
  | Except.error a, Except.error b =>
    if h : a = b then isTrue (by rw [h]) else isFalse (fun hc => h (Except.error.inj hc))
  | Except.ok a, Except.ok b =>
    if h : a = b then isTrue (by rw [h]) else isFalse (fun hc => h (Except.ok.inj hc))
  | Except.error _, Except.ok _ => isFalse (fun hc => Except.noConfusion hc)
  | Except.ok _, Except.error _ => isFalse (fun hc => Except.noConfusion hc)

/-- An all-zero row, used only as the out-of-range default of `List.getD`
when naming the last two positions of a series; every use below is guarded
by a length hypothesis, so the default is never reached. -/
def rowDefault : Row := ⟨0, 0, 0, 0, 0⟩

/-- The last row of a frame (`df.iloc[-1]` when the frame is nonempty). -/
def lastOf (df : List Row) : Row := df.getD (df.length - 1) rowDefault

/-- The second-to-last row of a frame (`df.iloc[-2]` when the frame has at
least two rows). -/
def prevOf (df : List Row) : Row := df.getD (df.length - 2) rowDefault

/-! Concrete inputs used by the witnesses and counterexamples below. -/

/-- Higher-timeframe frame whose last row shows an uptrend (`ema20 = 2 > 1 = ema50`). -/
def htfW : List Row := [⟨0, 2, 1, 0, 0⟩]

/-- Lower-timeframe frame with a bullish EMA20 pullback crossover
(previous close 1 < 2 = ema20, current close 3 > 2 = ema20) on which the
Bollinger reversal would independently fire `BUY_PE`
(previous close 1 > 0 = bb_upper, current close 3 < 4 = bb_upper). -/
def ltfW : List Row := [⟨1, 2, 10, 0, -5⟩, ⟨3, 2, 10, 4, -5⟩]

/-- The spec's Bollinger `BUY_CE` example: previous close 95 below
`bb_lower` 100, current close 101 back above it. -/
def dfCeW : List Row := [⟨95, 0, 0, 120, 100⟩, ⟨101, 0, 0, 120, 100⟩]

/-- The spec's Bollinger `BUY_PE` example: previous close 110 above
`bb_upper` 105, current close 104 back below it. -/
def dfPeW : List Row := [⟨110, 0, 0, 105, 90⟩, ⟨104, 0, 0, 105, 90⟩]

/-- A series whose last two rows have inverted bands at the previous
position (`bb_upper = -1 < 1 = bb_lower`): both the lower-band and the
upper-band crossover conditions hold simultaneously. -/
def dfInvW : List Row := [⟨0, 0, 0, -1, 1⟩, ⟨0, 0, 0, 1, -1⟩]

/-- A series where the current close exactly equals the current `bb_lower`
while the upper-band reversal fires: previous close 110 above `bb_upper`
105, current close 90 equal to `bb_lower` 90 and below `bb_upper` 105. -/
def dfEqW : List Row := [⟨110, 0, 0, 105, 95⟩, ⟨90, 0, 0, 105, 90⟩]

/-- Uptrend frame for the strict-boundary witness. -/
def htfU : List Row := [⟨0, 2, 1, 0, 0⟩]

/-- Frame for the strict-boundary witness: the current close equals the
current `ema20` (2 = 2), the EMA50 clause fails (current close 2 is not
above `ema50` 10), the previous close equals the previous `bb_lower`
(1 = 1) and the current close equals the current `bb_upper` (2 = 2). -/
def ltfU : List Row := [⟨1, 2, 10, 7, 1⟩, ⟨2, 2, 10, 2, 0⟩]

/-- A single-row series: too short for the detectors. -/
def dfSolo : List Row := [⟨1, 1, 1, 1, 1⟩]

/-- Candle frame with a constant close of 5, no band columns yet. -/
noncomputable def df5 : DF :=
  ⟨["a", "b", "c"], [5, 5, 5], [5, 5, 5], [5, 5, 5], [5, 5, 5], [1, 1, 1], none, none⟩

/-- A two-candle frame with no band columns, as `fetch_candles` builds it. -/
noncomputable def dfX : DF :=
  ⟨["a", "b"], [1, 2], [1, 2], [1, 2], [1, 2], [10, 20], none, none⟩

/-- An upstream response with a failing HTTP status. -/
def r404 : FetchResponse := ⟨404, none⟩

/-- A 200 response whose body has no `"data"` field. -/
def rNoData : FetchResponse := ⟨200, none⟩

/-- A 200 response whose `"data"."candles"` list is present but empty. -/
def rEmpty : FetchResponse := ⟨200, some (some [])⟩

end Algo

/-! Helper lemmas: resolving pandas `.iloc` indexing, the case analyses of
the two detectors, and pointwise descriptions of the indicator columns. -/

namespace Algo

theorem iloc_neg_ok (df : List Row) (m : ℕ) (h1 : 1 ≤ m) (h2 : m ≤ df.length) :
    iloc df (-(m : ℤ)) = Except.ok (df.getD (df.length - m) rowDefault) := by
  simp only [iloc]
  have hneg : ((-(m : ℤ)) < 0) := by omega
  rw [if_pos hneg]
  have h0 : (0 : ℤ) ≤ -(m : ℤ) + (df.length : ℤ) := by omega
  rw [if_pos h0]
  have ht : (-(m : ℤ) + (df.length : ℤ)).toNat = df.length - m := by omega
  have hlt : df.length - m < df.length := by omega
  rw [ht, List.get?_eq_get hlt, List.getD_eq_getElem df rowDefault hlt]
  simp

theorem iloc_neg_oob (df : List Row) (m : ℕ) (h1 : 1 ≤ m) (h2 : df.length < m) :
    iloc df (-(m : ℤ)) = Except.error ("single positional indexer is out-of-bounds") := by
  simp only [iloc]
  have hneg : ((-(m : ℤ)) < 0) := by omega
  rw [if_pos hneg]
  have h0 : ¬ ((0 : ℤ) ≤ -(m : ℤ) + (df.length : ℤ)) := by omega
  rw [if_neg h0]

theorem iloc_neg_one (df : List Row) (h : 1 ≤ df.length) :
    iloc df (-1) = Except.ok (lastOf df) := by
  have h2 := iloc_neg_ok df 1 (by omega) h
  have hc : (-1 : ℤ) = -((1 : ℕ) : ℤ) := by norm_num
  rw [hc, h2, lastOf]

theorem iloc_neg_two (df : List Row) (h : 2 ≤ df.length) :
    iloc df (-2) = Except.ok (prevOf df) := by
  have h2 := iloc_neg_ok df 2 (by omega) h
  have hc : (-2 : ℤ) = -((2 : ℕ) : ℤ) := by norm_num
  rw [hc, h2, prevOf]

theorem bb_reversal_cases (df : List Row) (h : 2 ≤ df.length) :
    (algo_bb_reversal df = Except.ok (some Sig.BUY_CE) ↔
      ((prevOf df).close < (prevOf df).bb_lower ∧
       (lastOf df).close > (lastOf df).bb_lower)) ∧
    (algo_bb_reversal df = Except.ok (some Sig.BUY_PE) ↔
      (¬ ((prevOf df).close < (prevOf df).bb_lower ∧
          (lastOf df).close > (lastOf df).bb_lower) ∧
       ((prevOf df).close > (prevOf df).bb_upper ∧
        (lastOf df).close < (lastOf df).bb_upper))) ∧
    (algo_bb_reversal df = Except.ok none ↔
      (¬ ((prevOf df).close < (prevOf df).bb_lower ∧
          (lastOf df).close > (lastOf df).bb_lower) ∧
       ¬ ((prevOf df).close > (prevOf df).bb_upper ∧
          (lastOf df).close < (lastOf df).bb_upper))) := by
  rw [algo_bb_reversal, iloc_neg_two df h, iloc_neg_one df (by omega)]
  dsimp only
  split_ifs with h1 h2 <;> simp_all

theorem ema_pullback_cases (htf ltf : List Row) (hh : 1 ≤ htf.length) (hl : 2 ≤ ltf.length) :
    (algo_ema_pullback htf ltf = Except.ok (some Sig.BUY_CE) ↔
      ((lastOf htf).ema20 > (lastOf htf).ema50 ∧
       (((prevOf ltf).close < (prevOf ltf).ema20 ∧
         (lastOf ltf).close > (lastOf ltf).ema20) ∨
        ((prevOf ltf).close < (prevOf ltf).ema50 ∧
         (lastOf ltf).close > (lastOf ltf).ema50)))) ∧
    (algo_ema_pullback htf ltf = Except.ok (some Sig.BUY_PE) ↔
      ((lastOf htf).ema20 < (lastOf htf).ema50 ∧
       (((prevOf ltf).close > (prevOf ltf).ema20 ∧
         (lastOf ltf).close < (lastOf ltf).ema20) ∨
        ((prevOf ltf).close > (prevOf ltf).ema50 ∧
         (lastOf ltf).close < (lastOf ltf).ema50)))) ∧
    (algo_ema_pullback htf ltf = Except.ok none ↔
      (¬ ((lastOf htf).ema20 > (lastOf htf).ema50 ∧
          (((prevOf ltf).close < (prevOf ltf).ema20 ∧
            (lastOf ltf).close > (lastOf ltf).ema20) ∨
           ((prevOf ltf).close < (prevOf ltf).ema50 ∧
            (lastOf ltf).close > (lastOf ltf).ema50))) ∧
       ¬ ((lastOf htf).ema20 < (lastOf htf).ema50 ∧
          (((prevOf ltf).close > (prevOf ltf).ema20 ∧
            (lastOf ltf).close < (lastOf ltf).ema20) ∨
           ((prevOf ltf).close > (prevOf ltf).ema50 ∧
            (lastOf ltf).close < (lastOf ltf).ema50))))) ∧
    ((lastOf htf).ema20 = (lastOf htf).ema50 →
      algo_ema_pullback htf ltf = Except.ok none) := by
  rw [algo_ema_pullback, iloc_neg_two ltf hl, iloc_neg_one ltf (by omega),
    iloc_neg_one htf hh]
  dsimp only
  split_ifs with h1 h2 h3 h4 h5 h6 <;> simp_all
  all_goals try (constructor <;> intro hx <;> (exfalso; linarith))
  all_goals intro hx
  all_goals exfalso
  all_goals linarith

end Algo

namespace Algo

theorem emaFrom_length (a y : ℚ) (xs : List ℚ) : (emaFrom a y xs).length = xs.length := by
  induction xs generalizing y with
  | nil => rfl
  | cons x xs ih => simp [emaFrom, ih]

theorem emaFrom_getD (a : ℚ) :
    ∀ (xs : List ℚ) (y : ℚ) (i : ℕ), i < xs.length →
      (emaFrom a y xs).getD i 0 =
        a * xs.getD i 0 + (1 - a) * ((y :: emaFrom a y xs).getD i 0) := by
  intro xs
  induction xs with
  | nil => intro y i hi; simp at hi
  | cons x xs ih =>
    intro y i hi
    match i with
    | 0 => simp [emaFrom]
    | j + 1 =>
      simp only [emaFrom, List.getD_cons_succ]
      exact ih (a * x + (1 - a) * y) j (by simpa using hi)

theorem emaFrom_replicate (a v : ℚ) :
    ∀ n, emaFrom a v (List.replicate n v) = List.replicate n v := by
  intro n
  induction n with
  | zero => rfl
  | succ m ih =>
    have hv : a * v + (1 - a) * v = v := by ring
    simp only [List.replicate_succ, emaFrom, hv, ih]

theorem zipWith_map_same {α β γ δ : Type} (f : β → γ → δ) (g : α → β) (h : α → γ)
    (l : List α) : List.zipWith f (l.map g) (l.map h) = l.map (fun a => f (g a) (h a)) := by
  induction l with
  | nil => rfl
  | cons x xs ih => simp [ih]

theorem map_range_getD (g : ℕ → Option ℝ) (n i : ℕ) (hi : i < n) :
    ((List.range n).map g).getD i none = g i := by
  rw [List.getD_eq_getElem?_getD]
  simp [List.getElem?_map, List.getElem?_range hi]

theorem window_length (xs : List ℝ) (p i : ℕ) (hi : i < xs.length) (hp : p ≤ i + 1) :
    (window xs p i).length = p := by
  simp only [window, List.length_drop, List.length_take]
  omega

theorem bbUpperCol_getD (xs : List ℝ) (p i : ℕ) (hi : i < xs.length) :
    (bbUpperCol xs p).getD i none =
      if p ≤ i + 1 then
        some (listMean (window xs p i) + 2 * sampleStd (window xs p i))
      else none := by
  rw [bbUpperCol, rollingApply, rollingApply, zipWith_map_same, map_range_getD _ _ _ hi]
  by_cases hp : p ≤ i + 1 <;> simp [obin, hp]

theorem bbLowerCol_getD (xs : List ℝ) (p i : ℕ) (hi : i < xs.length) :
    (bbLowerCol xs p).getD i none =
      if p ≤ i + 1 then
        some (listMean (window xs p i) - 2 * sampleStd (window xs p i))
      else none := by
  rw [bbLowerCol, rollingApply, rollingApply, zipWith_map_same, map_range_getD _ _ _ hi]
  by_cases hp : p ≤ i + 1 <;> simp [obin, hp]

theorem bbUpperCol_length (xs : List ℝ) (p : ℕ) : (bbUpperCol xs p).length = xs.length := by
  simp [bbUpperCol, rollingApply]

theorem bbLowerCol_length (xs : List ℝ) (p : ℕ) : (bbLowerCol xs p).length = xs.length := by
  simp [bbLowerCol, rollingApply]

theorem window_replicate (n : ℕ) (v : ℝ) (p i : ℕ) (hi : i < n) (hp : p ≤ i + 1) :
    window (List.replicate n v) p i = List.replicate p v := by
  simp only [window, List.take_replicate, List.drop_replicate]
  congr 1
  omega

theorem listMean_replicate (p : ℕ) (hp : 1 ≤ p) (v : ℝ) :
    listMean (List.replicate p v) = v := by
  simp only [listMean, List.sum_replicate, List.length_replicate, nsmul_eq_mul]
  have hp0 : (p : ℝ) ≠ 0 := by positivity
  field_simp

theorem devSqSum_replicate (p : ℕ) (hp : 1 ≤ p) (v : ℝ) :
    devSqSum (List.replicate p v) = 0 := by
  simp only [devSqSum, List.map_replicate, listMean_replicate p hp, sub_self]
  simp

theorem sampleStd_replicate (p : ℕ) (hp : 1 ≤ p) (v : ℝ) :
    sampleStd (List.replicate p v) = 0 := by
  simp [sampleStd, devSqSum_replicate p hp]

end Algo

/-! Claim theorems. -/

namespace Algo

/-- C1: per instrument and cycle, with both strategies' inputs prepared
(nonempty `htf`, `ltf` with at least two rows): if the EMA Pullback
strategy is enabled and returns a signal, that signal is the cycle's
result, whatever the Bollinger strategy would say; if EMA Pullback is
disabled or returns no signal and Bollinger Reversal is enabled, the
result equals the raw Bollinger result (possibly none); if both are
disabled, the result is no signal. -/
theorem C1_combination_policy (use_ema use_bb : Bool) (htf ltf : List Row)
    (hh : 1 ≤ htf.length) (hl : 2 ≤ ltf.length) :
    (∀ s, use_ema = true → algo_ema_pullback htf ltf = Except.ok (some s) →
      cycleSignal use_ema use_bb htf ltf = Except.ok (some s)) ∧
    ((use_ema = false ∨ algo_ema_pullback htf ltf = Except.ok none) → use_bb = true →
      cycleSignal use_ema use_bb htf ltf = algo_bb_reversal ltf) ∧
    (use_ema = false → use_bb = false →
      cycleSignal use_ema use_bb htf ltf = Except.ok none) := by
  refine ⟨?_, ?_, ?_⟩
  · intro s hema heq
    simp [cycleSignal, hema, heq]
  · rintro (hef | hnone) hbb
    · simp [cycleSignal, hef, hbb]
    · cases use_ema <;> simp [cycleSignal, hnone, hbb]
  · intro he hb
    simp [cycleSignal, he, hb]

/-- C1 witness: a concrete run with both strategies enabled in which EMA
Pullback fires `BUY_CE` while Bollinger Reversal would independently fire
`BUY_PE`; the cycle result is `BUY_CE`. -/
theorem C1_witness :
    1 ≤ htfW.length ∧ 2 ≤ ltfW.length ∧
    algo_ema_pullback htfW ltfW = Except.ok (some Sig.BUY_CE) ∧
    algo_bb_reversal ltfW = Except.ok (some Sig.BUY_PE) ∧
    cycleSignal true true htfW ltfW = Except.ok (some Sig.BUY_CE) :=
  ⟨by decide, by decide, by decide, by decide,
    (C1_combination_policy true true htfW ltfW (by decide) (by decide)).1
      Sig.BUY_CE rfl (by decide)⟩

/-- C2: with `ema20`, `ema50` read at the last `htf` position and `close`,
`ema20`, `ema50` at the last two `ltf` positions, `algo_ema_pullback`
returns `BUY_CE` exactly when the last htf `ema20` is strictly greater
than the last htf `ema50` and either the EMA20 or, failing that, the EMA50
bullish crossover holds on the last two `ltf` rows; `BUY_PE` exactly under
the mirrored conditions when htf `ema20` is strictly less than `ema50`;
and no signal otherwise, in particular whenever the last htf `ema20`
equals the last htf `ema50`. -/
theorem C2_ema_pullback_characterization (htf ltf : List Row)
    (hh : 1 ≤ htf.length) (hl : 2 ≤ ltf.length) :
    (algo_ema_pullback htf ltf = Except.ok (some Sig.BUY_CE) ↔
      ((lastOf htf).ema20 > (lastOf htf).ema50 ∧
       (((prevOf ltf).close < (prevOf ltf).ema20 ∧
         (lastOf ltf).close > (lastOf ltf).ema20) ∨
        ((prevOf ltf).close < (prevOf ltf).ema50 ∧
         (lastOf ltf).close > (lastOf ltf).ema50)))) ∧
    (algo_ema_pullback htf ltf = Except.ok (some Sig.BUY_PE) ↔
      ((lastOf htf).ema20 < (lastOf htf).ema50 ∧
       (((prevOf ltf).close > (prevOf ltf).ema20 ∧
         (lastOf ltf).close < (lastOf ltf).ema20) ∨
        ((prevOf ltf).close > (prevOf ltf).ema50 ∧
         (lastOf ltf).close < (lastOf ltf).ema50)))) ∧
    (algo_ema_pullback htf ltf = Except.ok none ↔
      (¬ ((lastOf htf).ema20 > (lastOf htf).ema50 ∧
          (((prevOf ltf).close < (prevOf ltf).ema20 ∧
            (lastOf ltf).close > (lastOf ltf).ema20) ∨
           ((prevOf ltf).close < (prevOf ltf).ema50 ∧
            (lastOf ltf).close > (lastOf ltf).ema50))) ∧
       ¬ ((lastOf htf).ema20 < (lastOf htf).ema50 ∧
          (((prevOf ltf).close > (prevOf ltf).ema20 ∧
            (lastOf ltf).close < (lastOf ltf).ema20) ∨
           ((prevOf ltf).close > (prevOf ltf).ema50 ∧
            (lastOf ltf).close < (lastOf ltf).ema50))))) ∧
    ((lastOf htf).ema20 = (lastOf htf).ema50 →
      algo_ema_pullback htf ltf = Except.ok none) :=
  ema_pullback_cases htf ltf hh hl

/-- C2 witness: a concrete uptrend with an EMA20 bullish crossover gives
`BUY_CE`. -/
theorem C2_witness :
    1 ≤ htfW.length ∧ 2 ≤ ltfW.length ∧
    algo_ema_pullback htfW ltfW = Except.ok (some Sig.BUY_CE) :=
  ⟨by decide, by decide,
    (C2_ema_pullback_characterization htfW ltfW (by decide) (by decide)).1.mpr (by decide)⟩

/-- C3 counterexample: when the previous row's bands are inverted
(`bb_upper < close < bb_lower`) both reversal conditions hold at once; the
upper-band (`BUY_PE`) condition holds and yet the result is `BUY_CE`, so
"returns BUY_PE exactly when previous close > previous bb_upper and
current close < current bb_upper" is false as stated. -/
theorem C3_counterexample :
    ((prevOf dfInvW).close > (prevOf dfInvW).bb_upper ∧
     (lastOf dfInvW).close < (lastOf dfInvW).bb_upper) ∧
    algo_bb_reversal dfInvW = Except.ok (some Sig.BUY_CE) ∧
    algo_bb_reversal dfInvW ≠ Except.ok (some Sig.BUY_PE) := by
  decide

/-- C3 (amended): with at least two rows, `algo_bb_reversal` returns
`BUY_CE` exactly when the previous close is strictly below the previous
`bb_lower` and the current close strictly above the current `bb_lower`;
it returns `BUY_PE` exactly when that lower-band condition fails and the
previous close is strictly above the previous `bb_upper` and the current
close strictly below the current `bb_upper` (the lower-band check has
priority; the two can only overlap when the previous row's bands are
inverted); otherwise no signal. -/
theorem C3_bb_reversal_amended (df : List Row) (h : 2 ≤ df.length) :
    (algo_bb_reversal df = Except.ok (some Sig.BUY_CE) ↔
      ((prevOf df).close < (prevOf df).bb_lower ∧
       (lastOf df).close > (lastOf df).bb_lower)) ∧
    (algo_bb_reversal df = Except.ok (some Sig.BUY_PE) ↔
      (¬ ((prevOf df).close < (prevOf df).bb_lower ∧
          (lastOf df).close > (lastOf df).bb_lower) ∧
       ((prevOf df).close > (prevOf df).bb_upper ∧
        (lastOf df).close < (lastOf df).bb_upper))) ∧
    (algo_bb_reversal df = Except.ok none ↔
      (¬ ((prevOf df).close < (prevOf df).bb_lower ∧
          (lastOf df).close > (lastOf df).bb_lower) ∧
       ¬ ((prevOf df).close > (prevOf df).bb_upper ∧
          (lastOf df).close < (lastOf df).bb_upper))) :=
  bb_reversal_cases df h

/-- C3 witness: the spec's two examples, previous close 95 / `bb_lower`
100 / current close 101 gives `BUY_CE`, and previous close 110 /
`bb_upper` 105 / current close 104 gives `BUY_PE`. -/
theorem C3_witness :
    2 ≤ dfCeW.length ∧ 2 ≤ dfPeW.length ∧
    algo_bb_reversal dfCeW = Except.ok (some Sig.BUY_CE) ∧
    algo_bb_reversal dfPeW = Except.ok (some Sig.BUY_PE) :=
  ⟨by decide, by decide,
    (C3_bb_reversal_amended dfCeW (by decide)).1.mpr (by decide),
    (C3_bb_reversal_amended dfPeW (by decide)).2.1.mpr (by decide)⟩

/-- C4: for a series of length at least 1 and a period at least 1, `ema`
preserves length, its first element is the first input element, each later
element satisfies `out[i] = a * series[i] + (1 - a) * out[i-1]` with
`a = 2 / (period + 1)`, and a constant series is mapped to itself. -/
theorem C4_ema_spec (s : List ℚ) (p : ℕ) (hp : 1 ≤ p) (hs : 1 ≤ s.length) :
    (ema s p).length = s.length ∧
    (ema s p).getD 0 0 = s.getD 0 0 ∧
    (∀ i, 1 ≤ i → i < s.length →
      (ema s p).getD i 0 =
        (2 / ((p : ℚ) + 1)) * s.getD i 0 +
        (1 - 2 / ((p : ℚ) + 1)) * (ema s p).getD (i - 1) 0) ∧
    (∀ n v, ema (List.replicate n v) p = List.replicate n v) := by
  refine ⟨?_, ?_, ?_, ?_⟩
  · match s with
    | [] => simp at hs
    | x :: xs => simp [ema, emaFrom_length]
  · match s with
    | [] => simp at hs
    | x :: xs => simp [ema]
  · intro i h1 h2
    match s, i with
    | x :: xs, j + 1 =>
      simp only [ema, List.getD_cons_succ, Nat.add_sub_cancel]
      exact emaFrom_getD (2 / ((p : ℚ) + 1)) xs x j (by simpa using h2)
  · intro n v
    match n with
    | 0 => rfl
    | m + 1 =>
      simp only [List.replicate_succ, ema, emaFrom_replicate]

/-- C4 witness: `ema [4, 6] 3` has the claimed recurrence at position 1. -/
theorem C4_witness :
    1 ≤ 3 ∧ 1 ≤ ([4, 6] : List ℚ).length ∧
    (ema [4, 6] 3).getD 1 0 =
      (2 / ((3 : ℚ) + 1)) * ([4, 6] : List ℚ).getD 1 0 +
      (1 - 2 / ((3 : ℚ) + 1)) * (ema [4, 6] 3).getD 0 0 :=
  ⟨by decide, by decide,
    (C4_ema_spec [4, 6] 3 (by decide) (by decide)).2.2.1 1 (by decide) (by decide)⟩

end Algo

namespace Algo

/-- C5: for any frame and period `p ≥ 2`, `bollinger` writes the band
columns; at each position `i` with a full trailing window (`p ≤ i + 1`)
the upper band is the window mean plus twice the sample standard deviation
(square root of the squared-deviation sum divided by `p - 1`) and the
lower band the mean minus it; positions with `i + 1 < p` are undefined
(`none`); wherever both bands are defined the lower is at most the upper;
and on a constant series of value `v` both bands equal `v` wherever the
window is full. -/
theorem C5_bollinger_spec (df : DF) (p : ℕ) (hp : 2 ≤ p) :
    (bollinger df p).bb_upper = some (bbUpperCol df.close p) ∧
    (bollinger df p).bb_lower = some (bbLowerCol df.close p) ∧
    (bbUpperCol df.close p).length = df.close.length ∧
    (bbLowerCol df.close p).length = df.close.length ∧
    (∀ i, i < df.close.length → p ≤ i + 1 →
      (bbUpperCol df.close p).getD i none =
        some (listMean (window df.close p i) +
          2 * Real.sqrt (devSqSum (window df.close p i) / ((p : ℝ) - 1))) ∧
      (bbLowerCol df.close p).getD i none =
        some (listMean (window df.close p i) -
          2 * Real.sqrt (devSqSum (window df.close p i) / ((p : ℝ) - 1)))) ∧
    (∀ i, i + 1 < p →
      (bbUpperCol df.close p).getD i none = none ∧
      (bbLowerCol df.close p).getD i none = none) ∧
    (∀ i u l, (bbUpperCol df.close p).getD i none = some u →
      (bbLowerCol df.close p).getD i none = some l → l ≤ u) ∧
    (∀ v, df.close = List.replicate df.close.length v →
      ∀ i, i < df.close.length → p ≤ i + 1 →
      (bbUpperCol df.close p).getD i none = some v ∧
      (bbLowerCol df.close p).getD i none = some v) := by
  have hstd : ∀ i, i < df.close.length → p ≤ i + 1 →
      sampleStd (window df.close p i) =
        Real.sqrt (devSqSum (window df.close p i) / ((p : ℝ) - 1)) := by
    intro i hi hpi
    rw [sampleStd, window_length df.close p i hi hpi]
  refine ⟨rfl, rfl, bbUpperCol_length df.close p, bbLowerCol_length df.close p, ?_, ?_, ?_, ?_⟩
  · intro i hi hpi
    rw [bbUpperCol_getD df.close p i hi, bbLowerCol_getD df.close p i hi, if_pos hpi,
      if_pos hpi, hstd i hi hpi]
    exact ⟨rfl, rfl⟩
  · intro i hip
    by_cases hi : i < df.close.length
    · rw [bbUpperCol_getD df.close p i hi, bbLowerCol_getD df.close p i hi,
        if_neg (by omega), if_neg (by omega)]
      exact ⟨rfl, rfl⟩
    · constructor
      · exact List.getD_eq_default _ _ (by rw [bbUpperCol_length]; omega)
      · exact List.getD_eq_default _ _ (by rw [bbLowerCol_length]; omega)
  · intro i u l hu hl
    by_cases hi : i < df.close.length
    · rw [bbUpperCol_getD df.close p i hi] at hu
      rw [bbLowerCol_getD df.close p i hi] at hl
      by_cases hpi : p ≤ i + 1
      · rw [if_pos hpi] at hu hl
        have hu2 := Option.some.inj hu
        have hl2 := Option.some.inj hl
        have hs := Real.sqrt_nonneg
          (devSqSum (window df.close p i) / ((window df.close p i).length - 1))
        rw [sampleStd] at hu2 hl2
        linarith
      · rw [if_neg hpi] at hu
        exact absurd hu (by simp)
    · have hlen : (bbUpperCol df.close p).length ≤ i := by rw [bbUpperCol_length]; omega
      rw [List.getD_eq_default _ _ hlen] at hu
      exact absurd hu (by simp)
  · intro v hv i hi hpi
    rw [bbUpperCol_getD df.close p i hi, bbLowerCol_getD df.close p i hi, if_pos hpi,
      if_pos hpi]
    have hw : window df.close p i = List.replicate p v := by
      rw [hv] at hi ⊢
      rw [List.length_replicate] at hi
      exact window_replicate _ v p i hi hpi
    rw [hw, listMean_replicate p (by omega) v, sampleStd_replicate p (by omega) v]
    constructor
    · norm_num
    · norm_num

/-- C5 witness: period 2 on the constant close series `[5, 5, 5]` gives
both bands equal to 5 at position 1. -/
theorem C5_witness :
    2 ≤ 2 ∧
    (bbUpperCol df5.close 2).getD 1 none = some 5 ∧
    (bbLowerCol df5.close 2).getD 1 none = some 5 :=
  ⟨by norm_num,
    (C5_bollinger_spec df5 2 (by norm_num)).2.2.2.2.2.2.2 5 (by rfl) 1 (by decide) (by norm_num)⟩

/-- C6 counterexample: a 200 response whose `"data"."candles"` list is
present but empty makes `fetch_candles` return an empty series rather than
raise, so "a response whose payload contains no usable candle data must
produce an error" is false as stated. -/
theorem C6_counterexample :
    fetch_candles rEmpty 100 = Except.ok [] ∧
    fetch_candles rEmpty 100 ≠ Except.error ("No candle data returned") := by
  decide

/-- C6 (amended): `fetch_candles` raises exactly on a non-200 status
(`HTTP <status>`) or an absent `"data"`/`"candles"` field
(`No candle data returned`); when the candle list is present — even empty —
it returns the last `count` candles without further checks. -/
theorem C6_fetch_amended (r : FetchResponse) (count : ℕ) :
    (r.status ≠ 200 → fetch_candles r count = Except.error ("HTTP " ++ toString r.status)) ∧
    (r.payload = none → r.status = 200 →
      fetch_candles r count = Except.error ("No candle data returned")) ∧
    (r.payload = some none → r.status = 200 →
      fetch_candles r count = Except.error ("No candle data returned")) ∧
    (∀ cs, r.payload = some (some cs) → r.status = 200 →
      fetch_candles r count = Except.ok (takeLastPy count cs)) := by
  refine ⟨?_, ?_, ?_, ?_⟩
  · intro hs
    simp [fetch_candles, hs]
  · intro hp hs
    simp [fetch_candles, hp, hs]
  · intro hp hs
    simp [fetch_candles, hp, hs]
  · intro cs hp hs
    simp [fetch_candles, hp, hs]

/-- C6 witness: a 404 response raises `HTTP 404`; a 200 response without a
`"data"` field raises `No candle data returned`. -/
theorem C6_witness :
    r404.status ≠ 200 ∧ rNoData.payload = none ∧ rNoData.status = 200 ∧
    fetch_candles r404 100 = Except.error ("HTTP " ++ toString r404.status) ∧
    fetch_candles rNoData 100 = Except.error ("No candle data returned") :=
  ⟨by decide, rfl, rfl,
    (C6_fetch_amended r404 100).1 (by decide),
    (C6_fetch_amended rNoData 100).2.1 rfl rfl⟩

/-- C7: one cycle over the selected instruments renders, for each
instrument in order, exactly the message of that instrument's own
evaluation — a caught exception becomes that instrument's error message —
so a failing instrument changes nothing for the instruments after it and
never aborts the loop. -/
theorem C7_instrument_loop (evalBody : String → Except String (Option Sig))
    (instrs : List String) :
    runCycle evalBody instrs = instrs.map (fun sym => renderStep sym (evalBody sym)) ∧
    (runCycle evalBody instrs).length = instrs.length ∧
    (∀ sym e, renderStep sym (Except.error e) = Msg.err sym e) := by
  have hmap : runCycle evalBody instrs =
      instrs.map (fun sym => renderStep sym (evalBody sym)) := by
    induction instrs with
    | nil => rfl
    | cons sym rest ih => simp [runCycle, ih]
  exact ⟨hmap, by rw [hmap, List.length_map], fun sym e => rfl⟩

/-- C8 counterexample: `bollinger` writes the band columns into the frame
passed in, so the caller's frame after the call differs from the frame
before it — "it does not modify its input" is false. -/
theorem C8_counterexample : bollingerArgAfter dfX 20 ≠ dfX := by
  intro heq
  have h2 := congrArg DF.bb_upper heq
  simp [bollingerArgAfter, bollinger, dfX] at h2

/-- C8 (amended): `bollinger` is a deterministic function of its input
that never alters the existing columns (time, open, high, low, close,
volume); its only effect is adding the two band columns, written in place,
so the caller's frame after the call equals the returned frame. -/
theorem C8_bollinger_frame_amended (df : DF) (p : ℕ) :
    (bollinger df p).time = df.time ∧
    (bollinger df p).open_ = df.open_ ∧
    (bollinger df p).high = df.high ∧
    (bollinger df p).low = df.low ∧
    (bollinger df p).close = df.close ∧
    (bollinger df p).volume = df.volume ∧
    bollingerArgAfter df p = bollinger df p :=
  ⟨rfl, rfl, rfl, rfl, rfl, rfl, rfl⟩

/-- C9: on a series with fewer than two rows both detectors raise the
pandas out-of-bounds `IndexError` instead of returning "no signal", and
the instrument loop renders it as a per-instrument error message. -/
theorem C9_short_series_error (htf ltf : List Row) (h : ltf.length < 2) :
    algo_ema_pullback htf ltf =
      Except.error ("single positional indexer is out-of-bounds") ∧
    algo_bb_reversal ltf =
      Except.error ("single positional indexer is out-of-bounds") ∧
    (∀ sym, renderStep sym (algo_ema_pullback htf ltf) =
        Msg.err sym ("single positional indexer is out-of-bounds") ∧
      renderStep sym (algo_bb_reversal ltf) =
        Msg.err sym ("single positional indexer is out-of-bounds")) := by
  have hc : (-2 : ℤ) = -((2 : ℕ) : ℤ) := by norm_num
  have hoob := iloc_neg_oob ltf 2 (by omega) h
  have h1 : algo_ema_pullback htf ltf =
      Except.error ("single positional indexer is out-of-bounds") := by
    rw [algo_ema_pullback, hc, hoob]
  have h2 : algo_bb_reversal ltf =
      Except.error ("single positional indexer is out-of-bounds") := by
    rw [algo_bb_reversal, hc, hoob]
  exact ⟨h1, h2, fun sym => by rw [h1, h2]; exact ⟨rfl, rfl⟩⟩

/-- C9 witness: a one-row series raises the out-of-bounds error in both
detectors and is reported as a per-instrument error message. -/
theorem C9_witness :
    dfSolo.length < 2 ∧
    algo_ema_pullback [] dfSolo =
      Except.error ("single positional indexer is out-of-bounds") ∧
    algo_bb_reversal dfSolo =
      Except.error ("single positional indexer is out-of-bounds") ∧
    renderStep ("NIFTY") (algo_bb_reversal dfSolo) =
      Msg.err ("NIFTY") ("single positional indexer is out-of-bounds") := by
  have h := C9_short_series_error [] dfSolo (by decide)
  exact ⟨by decide, h.1, h.2.1, (h.2.2 ("NIFTY")).2⟩

/-- C10 counterexample: with the current close exactly equal to the
current `bb_lower`, `algo_bb_reversal` can still return `BUY_PE` through
the upper-band crossover, so "returns no signal when ... the current close
equals bb_lower" is false as stated. -/
theorem C10_counterexample :
    (lastOf dfEqW).close = (lastOf dfEqW).bb_lower ∧
    algo_bb_reversal dfEqW = Except.ok (some Sig.BUY_PE) ∧
    algo_bb_reversal dfEqW ≠ Except.ok none := by
  decide

/-- C10 (amended): every boundary comparison is strict, so an exact tie
never satisfies the compared crossover: in an uptrend with the current
close equal to the current `ema20` and the EMA50 clause failing,
`algo_ema_pullback` returns no signal; and `algo_bb_reversal` never
returns `BUY_CE` when the previous or current close equals the respective
`bb_lower`, and never returns `BUY_PE` when the previous or current close
equals the respective `bb_upper` (the other band's crossover may still
fire). -/
theorem C10_strict_boundaries_amended (htf ltf : List Row)
    (hh : 1 ≤ htf.length) (hl : 2 ≤ ltf.length) :
    ((lastOf htf).ema20 > (lastOf htf).ema50 →
      (lastOf ltf).close = (lastOf ltf).ema20 →
      ¬ ((prevOf ltf).close < (prevOf ltf).ema50 ∧
         (lastOf ltf).close > (lastOf ltf).ema50) →
      algo_ema_pullback htf ltf = Except.ok none) ∧
    ((prevOf ltf).close = (prevOf ltf).bb_lower ∨
     (lastOf ltf).close = (lastOf ltf).bb_lower →
      algo_bb_reversal ltf ≠ Except.ok (some Sig.BUY_CE)) ∧
    ((prevOf ltf).close = (prevOf ltf).bb_upper ∨
     (lastOf ltf).close = (lastOf ltf).bb_upper →
      algo_bb_reversal ltf ≠ Except.ok (some Sig.BUY_PE)) := by
  obtain ⟨hce, hpe, hnone, -⟩ := ema_pullback_cases htf ltf hh hl
  obtain ⟨bce, bpe, -⟩ := bb_reversal_cases ltf hl
  refine ⟨?_, ?_, ?_⟩
  · intro hup hcurr hno50
    apply hnone.mpr
    constructor
    · rintro ⟨-, (⟨h1, h2⟩ | h50)⟩
      · rw [hcurr] at h2
        exact lt_irrefl _ h2
      · exact hno50 h50
    · rintro ⟨hdown, -⟩
      exact lt_asymm hup hdown
  · intro hdisj hres
    have hcond := bce.mp hres
    rcases hdisj with heq | heq
    · rw [heq] at hcond
      exact lt_irrefl _ hcond.1
    · rw [heq] at hcond
      exact lt_irrefl _ hcond.2
  · intro hdisj hres
    have hcond := (bpe.mp hres).2
    rcases hdisj with heq | heq
    · rw [heq] at hcond
      exact lt_irrefl _ hcond.1
    · rw [heq] at hcond
      exact lt_irrefl _ hcond.2

/-- C10 witness: concrete frames where the current close ties the current
`ema20`, the previous close ties the previous `bb_lower` and the current
close ties the current `bb_upper`: the EMA strategy yields no signal and
the tied band crossovers do not fire. -/
theorem C10_witness :
    1 ≤ htfU.length ∧ 2 ≤ ltfU.length ∧
    algo_ema_pullback htfU ltfU = Except.ok none ∧
    algo_bb_reversal ltfU ≠ Except.ok (some Sig.BUY_CE) ∧
    algo_bb_reversal ltfU ≠ Except.ok (some Sig.BUY_PE) := by
  have h := C10_strict_boundaries_amended htfU ltfU (by decide) (by decide)
  exact ⟨by decide, by decide, h.1 (by decide) (by decide) (by decide),
    h.2.1 (Or.inl (by decide)), h.2.2 (Or.inr (by decide))⟩

end Algo
